import Mathlib

/-!
# AI-Country-Risk-Dashboard — verification of the spec against the code

This file shallowly embeds the parts of the repository that the claims
C1–C10 are about, and proves theorems about them.

Two groups of definitions:

* The backend headline pipeline (Link Resolver, Tier-1 extractor,
  Enrichment Gate, Tier-2 merge).  The Python sources
  (`backend/utils/url_resolver.py`, `backend/utils/webscraping/simple_scraper.py`,
  `backend/utils/webscraping/advanced_scraper.py`) are not present in the
  repository snapshot; only the backend README describes them.  These
  definitions are therefore modelled from the spec (each doc comment says so).

* The frontend weekly refresh (`src/frontend/app/lib/risk-server.ts`):
  `refreshRiskJsonWeekly`, `msUntilNextEligible` and their helpers are
  embedded directly from the TypeScript source, with the file system, the
  clock and the database passed in as an explicit environment value and the
  resulting file contents returned explicitly.
-/

/-! ## Shared pipeline data model (modelled from the spec, §3) -/

/-- Modelled from the spec: extraction tier marker of an `ArticleRecord`
(`tier1` or `tier1+tier2`); the backend Python code is missing from the
snapshot. -/
inductive Tier where
  | tier1
  | tier1tier2
deriving DecidableEq, Repr

/-- Modelled from the spec: a `CandidateLink` — an aggregator URL plus minimal
feed metadata (title, source label, publish timestamp); the backend Python
code is missing from the snapshot. -/
structure CandidateLink where
  url : String
  title : Option String
  source : Option String
  published_at : Option String
deriving DecidableEq, Repr

/-- Modelled from the spec: a `ResolvedLink` — a `CandidateLink` whose URL has
been replaced by the canonical publisher URL (or kept when resolution
failed). -/
structure ResolvedLink where
  url : String
  title : Option String
  source : Option String
  published_at : Option String
deriving DecidableEq, Repr

/-- Modelled from the spec: the `ArticleRecord` produced and consumed by the
pipeline stages (§3 of the spec). `rank` is `some k` (k ∈ 1..3) only for
gate-selected records. -/
structure ArticleRecord where
  url : String
  title : Option String
  source : Option String
  published_at : Option String
  summary : Option String
  full_text : Option String
  thumbnail_url : Option String
  extraction_tier : Tier
  rank : Option Nat
deriving DecidableEq, Repr

/-- `true` iff the first list is a prefix of the second (character lists;
structural counterpart of `String.startsWith`). -/
def charsPre : List Char → List Char → Bool
  | [], _ => true
  | _ :: _, [] => false
  | p :: ps, c :: cs => p == c && charsPre ps cs

/-- `strStarts s p` — `s` starts with the prefix `p`. -/
def strStarts (s p : String) : Bool := charsPre p.data s.data

/-- `true` iff the string is an absolute URL with scheme `http` or `https`. -/
def isAbsHttpUrl (s : String) : Bool :=
  strStarts s "http://" || strStarts s "https://"

/-- An optional string field is "empty" when it is `none` or the empty
string — the spec's notion of a field the enrichment service "returns
empty/missing". -/
def optEmpty (o : Option String) : Bool :=
  match o with
  | none => true
  | some s => s = ""

/-! ## Link Resolver (modelled from the spec, §4.1; `backend/utils/url_resolver.py`
is missing from the snapshot) -/

/-- Outcome of the single resolution attempt against the aggregator wrapper:
either the decoded publisher URL, or a failure (network error, wrapper
decode failure, timeout). -/
inductive ResolveOutcome where
  | resolved (publisherUrl : String)
  | failed
deriving DecidableEq, Repr

/-- Modelled from the spec: the aggregator's wrapper pattern — the backend
README names `news.google.com` wrapper links as the aggregator redirects
that `url_resolver` decodes. -/
def isWrapperUrl (u : String) : Bool :=
  strStarts u "https://news.google.com/" || strStarts u "http://news.google.com/"

/-- Modelled from the spec: `url_resolver` (§4.1) — if the URL matches the
aggregator's wrapper pattern, follow/decode to the underlying publisher URL
(the single network attempt is the `attempt` argument); otherwise pass the
URL through unchanged.  A failed attempt falls back to the original URL. -/
def resolveUrl (attempt : String → ResolveOutcome) (u : String) : String :=
  if isWrapperUrl u then
    match attempt u with
    | .resolved p => p
    | .failed => u
  else u

/-! ## Tier-1 extractor (modelled from the spec, §4.2;
`backend/utils/webscraping/simple_scraper.py` is missing from the snapshot) -/

/-- Result of the single Tier-1 fetch of an article page.  The page content
is abstracted as the per-field candidates the ordered fallback chain of the
extractor inspects. -/
structure Page where
  ogImage : Option String
  twitterImage : Option String
  jsonLdImage : Option String
  firstBodyImage : Option String
  metaDescription : Option String
  bodyText : Option String
deriving DecidableEq, Repr

/-- Result of the single Tier-1 fetch attempt: a parsed HTML page, or one of
the per-article failure modes the spec enumerates. -/
inductive FetchResult where
  | ok (page : Page)
  | non200 (code : Nat)
  | nonHtml
  | timeout
  | parseFailure
deriving DecidableEq, Repr

/-- `true` iff the fetch did not yield a parseable HTML page. -/
def fetchFailed (f : FetchResult) : Bool :=
  match f with
  | .ok _ => false
  | _ => true

/-- First candidate in the ordered fallback chain that is a non-empty,
well-formed absolute `http(s)` URL; the chain stops there (spec §4.2). -/
def firstValidUrl : List (Option String) → Option String
  | [] => none
  | none :: rest => firstValidUrl rest
  | some u :: rest => if isAbsHttpUrl u then some u else firstValidUrl rest

/-- Modelled from the spec: the thumbnail fallback chain — Open Graph image →
Twitter-card image → JSON-LD article image → heuristic first body image →
null. -/
def pickThumbnail (p : Page) : Option String :=
  firstValidUrl [p.ogImage, p.twitterImage, p.jsonLdImage, p.firstBodyImage]

/-- Truncate a string to at most `budget` characters (the configured
full-text truncation length). -/
def truncateTo (budget : Nat) (s : String) : String :=
  String.mk (s.data.take budget)

/-- Characters of the string up to (excluding) the first `/`. -/
def takeUntilSlash : List Char → List Char
  | [] => []
  | c :: cs => if c = '/' then [] else c :: takeUntilSlash cs

/-- Drop a leading `http://` or `https://` scheme. -/
def dropScheme (l : List Char) : List Char :=
  if charsPre "https://".data l then l.drop 8
  else if charsPre "http://".data l then l.drop 7
  else l

/-- Modelled from the spec: derive a human-readable brand from the resolved
URL's domain (used when the feed supplies no source label). -/
def brandFromDomain (u : String) : String :=
  String.mk (takeUntilSlash (dropScheme u.data))

/-- Characters up to and including the first `.` (the first sentence). -/
def takeSentence : List Char → List Char
  | [] => []
  | c :: cs => if c = '.' then ['.'] else c :: takeSentence cs

/-- Modelled from the spec: synthesize a short synopsis from the first
sentences of the extracted body text (used when no meta description is
present). -/
def synthesizeSummary (body : String) : String :=
  String.mk (takeSentence body.data)

/-- Modelled from the spec: the minimally-populated `ArticleRecord` produced
when the Tier-1 fetch or parse of an article fails — it carries at least the
`url`, plus feed-given `title`/`source`/`published_at` when available. -/
def minimalRecord (link : ResolvedLink) : ArticleRecord :=
  { url := link.url
    title := link.title
    source := link.source
    published_at := link.published_at
    summary := none
    full_text := none
    thumbnail_url := none
    extraction_tier := .tier1
    rank := none }

/-- Modelled from the spec: the Tier-1 extractor (`simple_scraper.py`,
§4.2) — one fetch per article, best-effort structured extraction, never
raises.  On a successful fetch each field is derived by its ordered fallback
chain; any fetch failure (non-200, non-HTML, timeout, parse exception) is
converted into the minimally-populated record. -/
def tier1Extract (budget : Nat) (link : ResolvedLink) (fetch : FetchResult) : ArticleRecord :=
  match fetch with
  | .ok page =>
      { url := link.url
        title := link.title
        source := some ((link.source).getD (brandFromDomain link.url))
        published_at := link.published_at
        summary := match page.metaDescription with
          | some d => some d
          | none => page.bodyText.map synthesizeSummary
        full_text := page.bodyText.map (truncateTo budget)
        thumbnail_url := pickThumbnail page
        extraction_tier := .tier1
        rank := none }
  | _ => minimalRecord link

/-- Modelled from the spec: the per-country Tier-1 stage — every resolved
link is processed independently through `tier1Extract`, so one article's
failure cannot abort the country's run. -/
def tier1Country (budget : Nat) (links : List ResolvedLink)
    (fetch : ResolvedLink → FetchResult) : List ArticleRecord :=
  links.map (fun l => tier1Extract budget l (fetch l))

/-! ## Enrichment Gate (modelled from the spec, §4.3) -/

/-- Modelled from the spec: the gate's configuration — the publisher
allow-list (the backend README names Reuters and Bloomberg) and whether an
enrichment-service credential (Crawlbase token) is configured. -/
structure GateConfig where
  allowList : List String
  hasCredential : Bool
deriving DecidableEq, Repr

/-- `true` iff the record's canonical source matches the configured
publisher allow-list. -/
def sourceAllowed (allow : List String) (r : ArticleRecord) : Bool :=
  match r.source with
  | some s => allow.contains s
  | none => false

/-- One entry of the gate's output: the record at 0-based position `i` of
the impact-ordered list is marked `rank := i+1` exactly when a credential is
configured, it is among the top 3, and its source is allow-listed;
otherwise it is left untouched (tier-1-only, unranked). -/
def gateEntry (cfg : GateConfig) (i : Nat) (r : ArticleRecord) : ArticleRecord :=
  if cfg.hasCredential = true ∧ i < 3 ∧ sourceAllowed cfg.allowList r = true then
    { r with rank := some (i + 1) }
  else r

/-- Recursive worker of `gateMark`: marks the list starting at 0-based
position `i`. -/
def gateMarkGo (cfg : GateConfig) (i : Nat) : List ArticleRecord → List ArticleRecord
  | [] => []
  | r :: rs => gateEntry cfg i r :: gateMarkGo cfg (i + 1) rs

/-- Modelled from the spec: the Enrichment Gate (§4.3) — given the
impact-ordered tier-1 records, mark `rank` 1–3 on the top-3 records whose
source is allow-listed (and only when a credential is configured); all other
records are left tier-1-only and unranked. -/
def gateMark (cfg : GateConfig) (ranked : List ArticleRecord) : List ArticleRecord :=
  gateMarkGo cfg 0 ranked

/-! ## Tier-2 extractor and merge (modelled from the spec, §4.4;
`backend/utils/webscraping/advanced_scraper.py` is missing from the snapshot) -/

/-- Modelled from the spec: the enrichment service's response — richer
metadata (title, summary, body, image), each field possibly empty or
missing. -/
structure EnrichmentResponse where
  title : Option String
  summary : Option String
  full_text : Option String
  thumbnail_url : Option String
deriving DecidableEq, Repr

/-- Merge one field: a non-empty Tier-2 value overwrites the Tier-1 value;
an empty or missing Tier-2 value leaves the Tier-1 value in place
(spec §4.4 merge policy). -/
def mergeField (t1 t2 : Option String) : Option String :=
  match t2 with
  | some s => if s = "" then t1 else some s
  | none => t1

/-- Merge the full-text field: a non-empty Tier-2 body is truncated to the
configured budget before it overwrites the Tier-1 value (the spec's
storage-size invariant §8 holds of all `ArticleRecord`s handed
downstream). -/
def mergeText (budget : Nat) (t1 t2 : Option String) : Option String :=
  match t2 with
  | some s => if s = "" then t1 else some (truncateTo budget s)
  | none => t1

/-- Merge the thumbnail field: a Tier-2 image is accepted only when it is
non-empty and a well-formed absolute `http(s)` URL (the spec's thumbnail
invariant §3 holds of all `ArticleRecord`s); otherwise the Tier-1 value is
kept. -/
def mergeThumb (t1 t2 : Option String) : Option String :=
  match t2 with
  | some s => if s ≠ "" ∧ isAbsHttpUrl s = true then some s else t1
  | none => t1

/-- Modelled from the spec: the Tier-2 merge (§4.4) — strictly additive:
every field the enrichment service returned non-empty overwrites the Tier-1
value, every field it returned empty/missing is left as the Tier-1 value;
on success the record's tier becomes `tier1+tier2`. -/
def tier2Merge (budget : Nat) (r : ArticleRecord) (resp : EnrichmentResponse) : ArticleRecord :=
  { r with
    title := mergeField r.title resp.title
    summary := mergeField r.summary resp.summary
    full_text := mergeText budget r.full_text resp.full_text
    thumbnail_url := mergeThumb r.thumbnail_url resp.thumbnail_url
    extraction_tier := .tier1tier2 }

/-- Modelled from the spec: the Tier-2 stage for one record, returning the
(possibly enriched) record and the number of enrichment-service calls made
(0 or 1).  Only a gate-selected (rank-carrying) record is considered; the
crawl-permission policy is consulted first (a denial is a skip, not a
call); a service failure (`none` response) keeps the tier-1 record. -/
def tier2Stage (policy : String → Bool) (enrich : String → Option EnrichmentResponse)
    (budget : Nat) (r : ArticleRecord) : ArticleRecord × Nat :=
  if r.rank.isSome then
    if policy r.url then
      match enrich r.url with
      | some resp => (tier2Merge budget r resp, 1)
      | none => (r, 1)
    else (r, 0)
  else (r, 0)

/-- Modelled from the spec: gate + Tier-2 over a country's impact-ordered
tier-1 records — mark the gate's selection, then run the Tier-2 stage on
every record; returns the final records and the total number of
enrichment-service calls. -/
def countryEnrich (cfg : GateConfig) (policy : String → Bool)
    (enrich : String → Option EnrichmentResponse) (budget : Nat)
    (ranked : List ArticleRecord) : List ArticleRecord × Nat :=
  let outs := (gateMark cfg ranked).map (tier2Stage policy enrich budget)
  (outs.map Prod.fst, (outs.map Prod.snd).sum)

/-- The number of characters of an optional string (0 for `none`). -/
def optLen (o : Option String) : Nat := (o.getD "").length

/-! ## Frontend weekly refresh — embedded from
`src/frontend/app/lib/risk-server.ts`.

Timestamps are epoch milliseconds (`Int`): the TypeScript code stores ISO
strings and converts with `Date.parse` / `toISOString`; the embedding works
directly with the millisecond values.  JavaScript numbers carrying risk
scores are modelled as `Rat` (the code only stores and compares them). -/

/-- One entry of `public/api/risk.json` (`CountryRisk` in
`app/lib/risk-client.ts`). -/
structure CountryRisk where
  name : String
  lngLat : Rat × Rat
  risk : Rat
  prevRisk : Option Rat
  prevRiskSeries : Option (List Rat)
  iso2 : Option String
deriving DecidableEq, Repr

/-- One row of `fetchJoinedLatestRisksFromDB` (`JoinedLatestRisk` in
`risk-server.ts`). -/
structure JoinedLatestRisk where
  iso2 : String
  name : String
  as_of : String
  score : Rat
  bullet_summary : String
deriving DecidableEq, Repr

/-- `public/api/risk._meta.json` (`MetaFile` in `risk-server.ts`);
`last_run` is optional because the code guards on `meta?.last_run`. -/
structure MetaFile where
  last_run : Option Int
  note : Option String
  source : Option String
deriving DecidableEq, Repr

/-- What reading a JSON file can yield: the file is absent (ENOENT, the
code's `readJsonIfExists` returns null), the read or parse throws
(`malformed`, carrying the thrown message), or it parses to a value. -/
inductive FileRead (α : Type) where
  | absent
  | malformed (msg : String)
  | content (a : α)
deriving DecidableEq, Repr

/-- `RefreshOutcome` of `risk-server.ts`: the three result statuses of
`refreshRiskJsonWeekly`. -/
inductive RefreshOutcome where
  | skipped (lastRun nextEligible : Int)
  | updated (lastRun : Int) (matchedCount changedCount : Nat)
      (missingInJson : List String)
  | error (msg : String)
deriving DecidableEq, Repr

def RefreshOutcome.isSkipped : RefreshOutcome → Bool
  | .skipped _ _ => true
  | _ => false

def RefreshOutcome.isUpdated : RefreshOutcome → Bool
  | .updated _ _ _ _ => true
  | _ => false

def RefreshOutcome.isError : RefreshOutcome → Bool
  | .error _ => true
  | _ => false

/-- The environment `refreshRiskJsonWeekly` runs against: the clock, the two
JSON files, the database answer, and whether each file-system write throws
(`some msg`) or succeeds (`none`). -/
structure Env where
  now : Int
  meta : FileRead MetaFile
  risk : FileRead (List CountryRisk)
  db : Except String (List JoinedLatestRisk)
  mkdirErr : Option String
  writeRiskErr : Option String
  writeMetaErr : Option String
deriving Repr

/-- The observable result of a run: the returned outcome, the final contents
of the two files, and whether the database was queried. -/
structure RefreshResult where
  outcome : RefreshOutcome
  fsMeta : FileRead MetaFile
  fsRisk : FileRead (List CountryRisk)
  dbQueried : Bool
deriving Repr

def ONE_WEEK_MS : Int := 7 * 24 * 60 * 60 * 1000

/-- `msUntilNextEligible` of `risk-server.ts`: the next eligible instant is
`last_run + ONE_WEEK_MS`; `msLeft` is clamped at 0. -/
def msUntilNextEligible (now lastRun : Int) : Int × Int :=
  (lastRun + ONE_WEEK_MS, max 0 (lastRun + ONE_WEEK_MS - now))

/-- `true` for the whitespace characters `trim` strips. -/
def isSpaceChar (c : Char) : Bool :=
  c == ' ' || c == '\t' || c == '\n' || c == '\r'

/-- Strip leading and trailing whitespace from a character list. -/
def trimChars (l : List Char) : List Char :=
  ((l.dropWhile isSpaceChar).reverse.dropWhile isSpaceChar).reverse

/-- Lowercase one (ASCII) character. -/
def lowerChar (c : Char) : Char :=
  if 'A' ≤ c ∧ c ≤ 'Z' then Char.ofNat (c.toNat + 32) else c

/-- `normalize` of `refreshRiskJsonWeekly`: trim and lowercase a country
name (`s.trim().toLowerCase()`). -/
def normalizeName (s : String) : String :=
  String.mk ((trimChars s.data).map lowerChar)

/-- The lookup `dbMap.get(normalize(name))`: the JS `Map` keeps the last
`set` for a key, so this is the last row of `joined` whose normalized name
is `key`. -/
def dbLookup (joined : List JoinedLatestRisk) (key : String) : Option JoinedLatestRisk :=
  joined.reverse.find? (fun r => normalizeName r.name == key)

/-- Step 5 of `refreshRiskJsonWeekly`, one entry: a matched entry gets
`risk := score` and `iso2 := iso2` from the database row, everything else
spread-preserved; an unmatched entry is returned as-is. -/
def updatedEntry (joined : List JoinedLatestRisk) (d : CountryRisk) : CountryRisk :=
  match dbLookup joined (normalizeName d.name) with
  | some r => { d with risk := r.score, iso2 := some r.iso2 }
  | none => d

/-- Step 5 of `refreshRiskJsonWeekly`: `existing.map (...)`. -/
def updatedList (joined : List JoinedLatestRisk) (existing : List CountryRisk) :
    List CountryRisk :=
  existing.map (updatedEntry joined)

/-- `matchedCount` of `refreshRiskJsonWeekly`: entries whose normalized name
has a database row. -/
def matchedCount (joined : List JoinedLatestRisk) (existing : List CountryRisk) : Nat :=
  (existing.filter (fun d => (dbLookup joined (normalizeName d.name)).isSome)).length

/-- `changedCount` predicate of `refreshRiskJsonWeekly`: a matched entry
counts as changed when `risk` or `iso2` differs from the database row
(`undefined !== iso2` in JS is `none ≠ some _` here). -/
def entryChanged (joined : List JoinedLatestRisk) (d : CountryRisk) : Bool :=
  match dbLookup joined (normalizeName d.name) with
  | some r => decide (d.risk ≠ r.score) || decide (d.iso2 ≠ some r.iso2)
  | none => false

/-- `changedCount` of `refreshRiskJsonWeekly`. -/
def changedCount (joined : List JoinedLatestRisk) (existing : List CountryRisk) : Nat :=
  (existing.filter (entryChanged joined)).length

/-- Distinct keys in order of first insertion — the iteration order of the
JS `Map` built in step 4. -/
def dedupFirst : List String → List String
  | [] => []
  | k :: ks => k :: (dedupFirst ks).filter (fun x => x ≠ k)

/-- Step 6 of `refreshRiskJsonWeekly`: database keys no `existing` entry
matched, reported by the name of the first row carrying the key. -/
def missingInJson (joined : List JoinedLatestRisk) (existing : List CountryRisk) :
    List String :=
  ((dedupFirst (joined.map (fun r => normalizeName r.name))).filter
      (fun k => ¬ existing.any (fun d => normalizeName d.name == k))).map
    (fun k => match joined.find? (fun r => normalizeName r.name == k) with
      | some r => r.name
      | none => "")

/-- The `metaOut` value written in step 8 of `refreshRiskJsonWeekly`. -/
def metaOut (now : Int) : MetaFile :=
  { last_run := some now
    note := some "Updated risk scores and iso2; preserved existing entries and coords (lngLat)."
    source := some "neon" }

/-- Steps 2–8 of `refreshRiskJsonWeekly` (after the skip check): read
`risk.json`, query the database, build the updated array, write both files;
every thrown error is caught by the surrounding `try` and converted into the
`error` outcome. -/
def refreshAfterSkipCheck (env : Env) : RefreshResult :=
  match env.risk with
  | .malformed msg => ⟨.error msg, env.meta, env.risk, false⟩
  | .absent =>
      ⟨.error "public/api/risk.json is missing or empty; seed it first.",
        env.meta, env.risk, false⟩
  | .content existing =>
    if existing.isEmpty then
      ⟨.error "public/api/risk.json is missing or empty; seed it first.",
        env.meta, env.risk, false⟩
    else
      match env.db with
      | .error e => ⟨.error e, env.meta, env.risk, true⟩
      | .ok joined =>
        match env.mkdirErr with
        | some e => ⟨.error e, env.meta, env.risk, true⟩
        | none =>
          match env.writeRiskErr with
          | some e => ⟨.error e, env.meta, env.risk, true⟩
          | none =>
            match env.writeMetaErr with
            | some e =>
                ⟨.error e, env.meta, .content (updatedList joined existing), true⟩
            | none =>
                ⟨.updated env.now (matchedCount joined existing)
                    (changedCount joined existing) (missingInJson joined existing),
                  .content (metaOut env.now),
                  .content (updatedList joined existing), true⟩

/-- `refreshRiskJsonWeekly` of `risk-server.ts`: check the meta file's
`last_run` and return `skipped` when less than a week has passed; otherwise
run the refresh.  A malformed meta file throws inside the `try` and becomes
the `error` outcome. -/
def refreshRiskJsonWeekly (env : Env) : RefreshResult :=
  match env.meta with
  | .malformed msg => ⟨.error msg, env.meta, env.risk, false⟩
  | .absent => refreshAfterSkipCheck env
  | .content m =>
    match m.last_run with
    | none => refreshAfterSkipCheck env
    | some lr =>
      if (msUntilNextEligible env.now lr).2 > 0 then
        ⟨.skipped lr (msUntilNextEligible env.now lr).1, env.meta, env.risk, false⟩
      else refreshAfterSkipCheck env

/-! ## Sample data (used by the evaluation witnesses) -/

/-- A `risk.json` entry matched by the sample database row. -/
def sampleEntryFr : CountryRisk :=
  { name := "France", lngLat := (2, 48), risk := 1,
    prevRisk := some 1, prevRiskSeries := some [1], iso2 := none }

/-- A `risk.json` entry matched by no database row. -/
def sampleEntryAt : CountryRisk :=
  { name := "Atlantis", lngLat := (0, 0), risk := 0,
    prevRisk := none, prevRiskSeries := none, iso2 := none }

/-- A database row joining country and latest risk snapshot. -/
def sampleRowFr : JoinedLatestRisk :=
  { iso2 := "FR", name := "France", as_of := "2024-06-01", score := 2,
    bullet_summary := "stable" }

/-- An environment in which the refresh runs to completion. -/
def envUpdated : Env :=
  { now := 1000, meta := .absent,
    risk := .content [sampleEntryFr, sampleEntryAt],
    db := .ok [sampleRowFr], mkdirErr := none, writeRiskErr := none,
    writeMetaErr := none }

/-- An environment whose meta file records a run half a second ago. -/
def envSkip : Env :=
  { now := 1000, meta := .content { last_run := some 500, note := none, source := none },
    risk := .content [sampleEntryFr], db := .ok [sampleRowFr],
    mkdirErr := none, writeRiskErr := none, writeMetaErr := none }

/-- An environment whose meta file is unreadable. -/
def envBadMeta : Env :=
  { now := 1000, meta := .malformed "SyntaxError: Unexpected token",
    risk := .content [sampleEntryFr], db := .ok [sampleRowFr],
    mkdirErr := none, writeRiskErr := none, writeMetaErr := none }

/-! ## Helper lemmas -/

/-- An optional thumbnail is valid when it is absent or an absolute
`http(s)` URL. -/
def ValidThumb (o : Option String) : Prop :=
  o = none ∨ ∃ u, o = some u ∧ isAbsHttpUrl u = true

theorem firstValidUrl_spec (cands : List (Option String)) :
    ValidThumb (firstValidUrl cands) := by
  induction cands with
  | nil => exact Or.inl rfl
  | cons c rest ih =>
    match c with
    | none => simpa [firstValidUrl] using ih
    | some u =>
      by_cases h : isAbsHttpUrl u = true
      · exact Or.inr ⟨u, by simp [firstValidUrl, h], h⟩
      · simpa [firstValidUrl, h] using ih

theorem truncateTo_length (budget : Nat) (s : String) :
    (truncateTo budget s).length ≤ budget := by
  show (s.data.take budget).length ≤ budget
  simp [List.length_take]

/-! ## C6 — Link Resolver behavior and fallback -/

/-- C6: for every syntactically valid input URL, a URL that does not match
the aggregator's wrapper pattern is returned unchanged, and a URL whose
resolution attempt fails is returned unchanged (the resolver never raises:
`resolveUrl` is a total function). -/
theorem link_resolver_fallback (attempt : String → ResolveOutcome) (u : String) :
    (isWrapperUrl u = false → resolveUrl attempt u = u) ∧
    (attempt u = .failed → resolveUrl attempt u = u) := by
  constructor
  · intro h
    simp [resolveUrl, h]
  · intro h
    simp [resolveUrl, h]

set_option maxRecDepth 10000 in
/-- C6 witness: a plain publisher URL passes through, and a wrapper URL
whose resolution fails falls back to itself. -/
theorem link_resolver_fallback_witness :
    resolveUrl (fun _ => .failed) "https://example.com/story" = "https://example.com/story" ∧
    resolveUrl (fun _ => .failed) "https://news.google.com/rss/articles/x" =
      "https://news.google.com/rss/articles/x" := by
  constructor
  · exact (link_resolver_fallback (fun _ => ResolveOutcome.failed)
      "https://example.com/story").1 (by decide)
  · exact (link_resolver_fallback (fun _ => ResolveOutcome.failed)
      "https://news.google.com/rss/articles/x").2 rfl

/-! ## C7 — full-text truncation bound -/

/-- C7: every `ArticleRecord` handed downstream keeps `full_text` within the
configured truncation budget — the Tier-1 extractor truncates before
hand-off, and the Tier-2 merge keeps the bound. -/
theorem full_text_budget (budget : Nat) (link : ResolvedLink) (fetch : FetchResult)
    (r : ArticleRecord) (resp : EnrichmentResponse)
    (hr : optLen r.full_text ≤ budget) :
    optLen (tier1Extract budget link fetch).full_text ≤ budget ∧
    optLen (tier2Merge budget r resp).full_text ≤ budget := by
  constructor
  · match fetch with
    | .ok page =>
      match hb : page.bodyText with
      | none => simp [tier1Extract, optLen, hb]
      | some b => simpa [tier1Extract, optLen, hb] using truncateTo_length budget b
    | .non200 c => simp [tier1Extract, minimalRecord, optLen]
    | .nonHtml => simp [tier1Extract, minimalRecord, optLen]
    | .timeout => simp [tier1Extract, minimalRecord, optLen]
    | .parseFailure => simp [tier1Extract, minimalRecord, optLen]
  · match hresp : resp.full_text with
    | none => simpa [tier2Merge, mergeText, hresp] using hr
    | some s =>
      by_cases hs : s = ""
      · simpa [tier2Merge, mergeText, hresp, hs] using hr
      · simpa [tier2Merge, mergeText, hresp, hs, optLen] using truncateTo_length budget s

/-- C7 witness: a concrete page whose body exceeds the budget of 5
characters is truncated, and a concrete merge keeps the bound. -/
theorem full_text_budget_witness :
    optLen (tier1Extract 5 ⟨"https://a.com/x", none, none, none⟩
      (.ok ⟨none, none, none, none, none, some "abcdefghij"⟩)).full_text ≤ 5 ∧
    optLen (tier2Merge 5 (minimalRecord ⟨"https://a.com/x", none, none, none⟩)
      ⟨none, none, some "klmnopqrst", none⟩).full_text ≤ 5 := by
  exact full_text_budget 5 ⟨"https://a.com/x", none, none, none⟩
    (.ok ⟨none, none, none, none, none, some "abcdefghij"⟩)
    (minimalRecord ⟨"https://a.com/x", none, none, none⟩)
    ⟨none, none, some "klmnopqrst", none⟩ (by decide)

/-! ## C5 — thumbnail URL invariant -/

/-- C5: every `ArticleRecord` produced by the Tier-1 extractor carries a
`thumbnail_url` that is null or an absolute `http(s)` URL, and the Tier-2
merge preserves that invariant. -/
theorem thumbnail_url_invariant (budget : Nat) (link : ResolvedLink) (fetch : FetchResult)
    (r : ArticleRecord) (resp : EnrichmentResponse)
    (hr : ValidThumb r.thumbnail_url) :
    ValidThumb (tier1Extract budget link fetch).thumbnail_url ∧
    ValidThumb (tier2Merge budget r resp).thumbnail_url := by
  constructor
  · match fetch with
    | .ok page =>
      simpa [tier1Extract, pickThumbnail] using
        firstValidUrl_spec [page.ogImage, page.twitterImage, page.jsonLdImage,
          page.firstBodyImage]
    | .non200 c => exact Or.inl rfl
    | .nonHtml => exact Or.inl rfl
    | .timeout => exact Or.inl rfl
    | .parseFailure => exact Or.inl rfl
  · match hresp : resp.thumbnail_url with
    | none => simpa [tier2Merge, mergeThumb, hresp] using hr
    | some s =>
      by_cases hs : s ≠ "" ∧ isAbsHttpUrl s = true
      · exact Or.inr ⟨s, by simp [tier2Merge, mergeThumb, hresp, hs], hs.2⟩
      · simpa [tier2Merge, mergeThumb, hresp, hs] using hr

set_option maxRecDepth 10000 in
/-- C5 witness: a concrete page whose Open-Graph candidate is a relative
path falls through to the valid Twitter-card image, and a concrete merge
rejects a data-URI image. -/
theorem thumbnail_url_invariant_witness :
    ValidThumb (tier1Extract 100 ⟨"https://a.com/x", none, none, none⟩
      (.ok ⟨some "/img/rel.png", some "https://cdn.a.com/t.png", none, none, none,
        none⟩)).thumbnail_url ∧
    ValidThumb (tier2Merge 100
      { minimalRecord ⟨"https://a.com/x", none, none, none⟩ with
        thumbnail_url := some "https://cdn.a.com/t.png" }
      ⟨none, none, none, some "data:image/png;base64,AAAA"⟩).thumbnail_url := by
  exact thumbnail_url_invariant 100 ⟨"https://a.com/x", none, none, none⟩
    (.ok ⟨some "/img/rel.png", some "https://cdn.a.com/t.png", none, none, none, none⟩)
    { minimalRecord ⟨"https://a.com/x", none, none, none⟩ with
      thumbnail_url := some "https://cdn.a.com/t.png" }
    ⟨none, none, none, some "data:image/png;base64,AAAA"⟩
    (Or.inr ⟨"https://cdn.a.com/t.png", rfl, by decide⟩)

/-! ## C3 — Tier-2 merge monotonicity -/

/-- C3: for every `ArticleRecord` and every field the enrichment service
can return (title, summary, full text, thumbnail), if the Tier-1 value was
non-empty and the Tier-2 response for that field was empty or missing, the
post-merge value equals the Tier-1 value; and the merge never replaces a
non-empty Tier-1 value with an empty one (for the full text this needs the
configured truncation budget to be positive, as it is in any real
configuration). -/
theorem tier2_merge_monotone (budget : Nat) (r : ArticleRecord)
    (resp : EnrichmentResponse) (hbudget : 0 < budget) :
    (optEmpty r.title = false → optEmpty resp.title = true →
      (tier2Merge budget r resp).title = r.title) ∧
    (optEmpty r.summary = false → optEmpty resp.summary = true →
      (tier2Merge budget r resp).summary = r.summary) ∧
    (optEmpty r.full_text = false → optEmpty resp.full_text = true →
      (tier2Merge budget r resp).full_text = r.full_text) ∧
    (optEmpty r.thumbnail_url = false → optEmpty resp.thumbnail_url = true →
      (tier2Merge budget r resp).thumbnail_url = r.thumbnail_url) ∧
    (optEmpty r.title = false → optEmpty (tier2Merge budget r resp).title = false) ∧
    (optEmpty r.summary = false → optEmpty (tier2Merge budget r resp).summary = false) ∧
    (optEmpty r.full_text = false →
      optEmpty (tier2Merge budget r resp).full_text = false) ∧
    (optEmpty r.thumbnail_url = false →
      optEmpty (tier2Merge budget r resp).thumbnail_url = false) := by
  refine ⟨?_, ?_, ?_, ?_, ?_, ?_, ?_, ?_⟩
  · intro _ h2
    match hresp : resp.title with
    | none => simp [tier2Merge, mergeField, hresp]
    | some s =>
      rw [hresp] at h2
      simp only [optEmpty, decide_eq_true_eq] at h2
      simp [tier2Merge, mergeField, hresp, h2]
  · intro _ h2
    match hresp : resp.summary with
    | none => simp [tier2Merge, mergeField, hresp]
    | some s =>
      rw [hresp] at h2
      simp only [optEmpty, decide_eq_true_eq] at h2
      simp [tier2Merge, mergeField, hresp, h2]
  · intro _ h2
    match hresp : resp.full_text with
    | none => simp [tier2Merge, mergeText, hresp]
    | some s =>
      rw [hresp] at h2
      simp only [optEmpty, decide_eq_true_eq] at h2
      simp [tier2Merge, mergeText, hresp, h2]
  · intro _ h2
    match hresp : resp.thumbnail_url with
    | none => simp [tier2Merge, mergeThumb, hresp]
    | some s =>
      rw [hresp] at h2
      simp only [optEmpty, decide_eq_true_eq] at h2
      simp [tier2Merge, mergeThumb, hresp, h2]
  · intro h1
    match hresp : resp.title with
    | none => simpa [tier2Merge, mergeField, hresp] using h1
    | some s =>
      by_cases hs : s = ""
      · simpa [tier2Merge, mergeField, hresp, hs] using h1
      · simp [tier2Merge, mergeField, hresp, hs, optEmpty]
  · intro h1
    match hresp : resp.summary with
    | none => simpa [tier2Merge, mergeField, hresp] using h1
    | some s =>
      by_cases hs : s = ""
      · simpa [tier2Merge, mergeField, hresp, hs] using h1
      · simp [tier2Merge, mergeField, hresp, hs, optEmpty]
  · intro h1
    match hresp : resp.full_text with
    | none => simpa [tier2Merge, mergeText, hresp] using h1
    | some s =>
      by_cases hs : s = ""
      · simpa [tier2Merge, mergeText, hresp, hs] using h1
      · have hkey : truncateTo budget s ≠ "" := by
          intro hcontra
          have hlen : (truncateTo budget s).data.length = 0 := by
            rw [hcontra]
            rfl
          have hdata : (truncateTo budget s).data = s.data.take budget := rfl
          rw [hdata, List.length_take] at hlen
          have hsne : s.data ≠ [] := by
            intro hnil
            apply hs
            cases s with
            | mk d =>
              simp only at hnil
              simp [hnil]
          have hpos : 0 < s.data.length := List.length_pos.mpr hsne
          omega
        simp [tier2Merge, mergeText, hresp, hs, optEmpty, hkey]
  · intro h1
    match hresp : resp.thumbnail_url with
    | none => simpa [tier2Merge, mergeThumb, hresp] using h1
    | some s =>
      by_cases hs : s ≠ "" ∧ isAbsHttpUrl s = true
      · simp [tier2Merge, mergeThumb, hresp, hs, optEmpty, hs.1]
      · simpa [tier2Merge, mergeThumb, hresp, hs] using h1

/-- C3 witness: merging a response with an empty title and a missing body
into a fully-populated tier-1 record leaves both fields at their tier-1
values. -/
theorem tier2_merge_monotone_witness :
    (tier2Merge 100
      { url := "https://a.com/x", title := some "T", source := some "Reuters",
        published_at := some "2024-01-01", summary := some "S",
        full_text := some "Body.", thumbnail_url := some "https://a.com/i.png",
        extraction_tier := .tier1, rank := none }
      ⟨some "", none, none, none⟩).title = some "T" ∧
    (tier2Merge 100
      { url := "https://a.com/x", title := some "T", source := some "Reuters",
        published_at := some "2024-01-01", summary := some "S",
        full_text := some "Body.", thumbnail_url := some "https://a.com/i.png",
        extraction_tier := .tier1, rank := none }
      ⟨some "", none, none, none⟩).full_text = some "Body." := by
  constructor
  · exact (tier2_merge_monotone 100
      { url := "https://a.com/x", title := some "T", source := some "Reuters",
        published_at := some "2024-01-01", summary := some "S",
        full_text := some "Body.", thumbnail_url := some "https://a.com/i.png",
        extraction_tier := .tier1, rank := none }
      ⟨some "", none, none, none⟩ (by decide)).1 (by decide) (by decide)
  · exact (tier2_merge_monotone 100
      { url := "https://a.com/x", title := some "T", source := some "Reuters",
        published_at := some "2024-01-01", summary := some "S",
        full_text := some "Body.", thumbnail_url := some "https://a.com/i.png",
        extraction_tier := .tier1, rank := none }
      ⟨some "", none, none, none⟩ (by decide)).2.2.1 (by decide) (by decide)

/-! ## C1 — per-article failure isolation in the Tier-1 extractor -/

/-- C1: the per-country Tier-1 stage produces one record per resolved link
(no article is dropped, nothing is raised past the per-article boundary);
each output record depends only on its own link and fetch result, so one
article's failure cannot affect the others; and every failing fetch (non-200,
non-HTML, timeout, parse exception) yields the minimally-populated record
carrying at least the url plus the feed-given title, source and
published_at. -/
theorem tier1_failure_isolation (budget : Nat) (links : List ResolvedLink)
    (fetch : ResolvedLink → FetchResult) :
    (tier1Country budget links fetch).length = links.length ∧
    ∀ i (h : i < links.length) (h2 : i < (tier1Country budget links fetch).length),
      (tier1Country budget links fetch)[i] =
        tier1Extract budget links[i] (fetch links[i]) ∧
      (fetchFailed (fetch links[i]) = true →
        (tier1Country budget links fetch)[i] = minimalRecord links[i] ∧
        ((tier1Country budget links fetch)[i]).url = (links[i]).url ∧
        ((tier1Country budget links fetch)[i]).title = (links[i]).title ∧
        ((tier1Country budget links fetch)[i]).source = (links[i]).source ∧
        ((tier1Country budget links fetch)[i]).published_at = (links[i]).published_at) := by
  refine ⟨by simp [tier1Country], ?_⟩
  intro i h h2
  have hget : (tier1Country budget links fetch)[i] =
      tier1Extract budget links[i] (fetch links[i]) := by
    simp [tier1Country]
  refine ⟨hget, ?_⟩
  intro hfail
  have hmin : tier1Extract budget links[i] (fetch links[i]) = minimalRecord links[i] := by
    match hf : fetch links[i] with
    | .ok page => rw [hf] at hfail; simp [fetchFailed] at hfail
    | .non200 c => rfl
    | .nonHtml => rfl
    | .timeout => rfl
    | .parseFailure => rfl
  rw [hget, hmin]
  exact ⟨rfl, rfl, rfl, rfl, rfl⟩

/-- C1 witness: a country with two links, the first timing out — the second
is still extracted, and the first yields the minimal record with the feed
metadata. -/
theorem tier1_failure_isolation_witness :
    (tier1Country 100
      [⟨"https://a.com/1", some "T1", some "Reuters", some "2024-01-01"⟩,
       ⟨"https://b.com/2", some "T2", none, none⟩]
      (fun l => if l.url = "https://a.com/1" then .timeout
        else .ok ⟨none, none, none, none, some "D", some "Body."⟩)).length = 2 ∧
    (tier1Country 100
      [⟨"https://a.com/1", some "T1", some "Reuters", some "2024-01-01"⟩,
       ⟨"https://b.com/2", some "T2", none, none⟩]
      (fun l => if l.url = "https://a.com/1" then .timeout
        else .ok ⟨none, none, none, none, some "D", some "Body."⟩)).get ⟨0, by decide⟩ =
      minimalRecord ⟨"https://a.com/1", some "T1", some "Reuters", some "2024-01-01"⟩ := by
  constructor
  · exact (tier1_failure_isolation 100
      [⟨"https://a.com/1", some "T1", some "Reuters", some "2024-01-01"⟩,
       ⟨"https://b.com/2", some "T2", none, none⟩]
      (fun l => if l.url = "https://a.com/1" then .timeout
        else .ok ⟨none, none, none, none, some "D", some "Body."⟩)).1
  · exact (((tier1_failure_isolation 100
      [⟨"https://a.com/1", some "T1", some "Reuters", some "2024-01-01"⟩,
       ⟨"https://b.com/2", some "T2", none, none⟩]
      (fun l => if l.url = "https://a.com/1" then .timeout
        else .ok ⟨none, none, none, none, some "D", some "Body."⟩)).2 0 (by decide)
      (by decide)).2 (by decide)).1

/-! ## Gate lemmas (for C2 and C4) -/

theorem gateMarkGo_length (cfg : GateConfig) (l : List ArticleRecord) :
    ∀ s, (gateMarkGo cfg s l).length = l.length := by
  induction l with
  | nil => intro s; rfl
  | cons r rs ih => intro s; simp [gateMarkGo, ih]

theorem gateMarkGo_getElem (cfg : GateConfig) :
    ∀ (l : List ArticleRecord) (s i : Nat) (h : i < l.length)
      (h2 : i < (gateMarkGo cfg s l).length),
      (gateMarkGo cfg s l)[i] = gateEntry cfg (s + i) l[i] := by
  intro l
  induction l with
  | nil => intro s i h h2; simp at h
  | cons r rs ih =>
    intro s i h h2
    match i with
    | 0 => simp [gateMarkGo]
    | Nat.succ j =>
      have h' : j < rs.length := by simpa using h
      have h2' : j < (gateMarkGo cfg (s + 1) rs).length := by
        rw [gateMarkGo_length]
        exact h'
      have hcons : (gateMarkGo cfg s (r :: rs))[j + 1] =
          (gateMarkGo cfg (s + 1) rs)[j] := by
        simp [gateMarkGo]
      rw [hcons, ih (s + 1) j h' h2']
      have harith : s + 1 + j = s + (j + 1) := by omega
      rw [harith]
      simp

theorem gateMarkGo_noCred (cfg : GateConfig) (hc : cfg.hasCredential = false) :
    ∀ (l : List ArticleRecord) (s : Nat), gateMarkGo cfg s l = l := by
  intro l
  induction l with
  | nil => intro s; rfl
  | cons r rs ih =>
    intro s
    simp [gateMarkGo, gateEntry, hc, ih]

theorem tier2Stage_unranked (policy : String → Bool)
    (enrich : String → Option EnrichmentResponse) (budget : Nat)
    (r : ArticleRecord) (h : r.rank = none) :
    tier2Stage policy enrich budget r = (r, 0) := by
  simp [tier2Stage, h]

theorem tier2Stage_id_unranked (policy : String → Bool)
    (enrich : String → Option EnrichmentResponse) (budget : Nat)
    (l : List ArticleRecord) (h0 : ∀ r ∈ l, r.rank = none) :
    (l.map (tier2Stage policy enrich budget)).map Prod.fst = l ∧
    ((l.map (tier2Stage policy enrich budget)).map Prod.snd).sum = 0 := by
  induction l with
  | nil => exact ⟨rfl, rfl⟩
  | cons r rs ih =>
    have hr : r.rank = none := h0 r (by simp)
    have ihr := ih (fun x hx => h0 x (by simp [hx]))
    simp only [List.map_cons, tier2Stage_unranked policy enrich budget r hr]
    refine ⟨?_, ?_⟩
    · simpa [List.map_map] using ihr.1
    · simpa [List.map_map] using ihr.2

theorem gateMarkGo_rank_bounds (cfg : GateConfig) :
    ∀ (l : List ArticleRecord) (s : Nat), (∀ r ∈ l, r.rank = none) →
      ∀ r' ∈ gateMarkGo cfg s l, ∀ k, r'.rank = some k → s + 1 ≤ k ∧ k ≤ 3 := by
  intro l
  induction l with
  | nil => intro s h r' hr'; simp [gateMarkGo] at hr'
  | cons r rs ih =>
    intro s h r' hr' k hk
    simp only [gateMarkGo, List.mem_cons] at hr'
    rcases hr' with h1 | h2
    · subst h1
      by_cases hcond : cfg.hasCredential = true ∧ s < 3 ∧
          sourceAllowed cfg.allowList r = true
      · rw [gateEntry, if_pos hcond] at hk
        simp only at hk
        have hks : k = s + 1 := by
          injection hk with hk2
          omega
        omega
      · rw [gateEntry, if_neg hcond] at hk
        rw [h r (by simp)] at hk
        cases hk
    · have := ih (s + 1) (fun x hx => h x (by simp [hx])) r' h2 k hk
      omega

theorem gateMarkGo_count (cfg : GateConfig) :
    ∀ (l : List ArticleRecord) (s : Nat), (∀ r ∈ l, r.rank = none) →
      ((gateMarkGo cfg s l).filter (fun r => r.rank.isSome)).length ≤ 3 - s := by
  intro l
  induction l with
  | nil => intro s h; simp [gateMarkGo]
  | cons r rs ih =>
    intro s h
    have ihr := ih (s + 1) (fun x hx => h x (by simp [hx]))
    by_cases hcond : cfg.hasCredential = true ∧ s < 3 ∧
        sourceAllowed cfg.allowList r = true
    · have hrank : (gateEntry cfg s r).rank = some (s + 1) := by
        rw [gateEntry, if_pos hcond]
      have hs3 : s < 3 := hcond.2.1
      have hfil : (gateMarkGo cfg s (r :: rs)).filter (fun r => r.rank.isSome) =
          gateEntry cfg s r ::
            (gateMarkGo cfg (s + 1) rs).filter (fun r => r.rank.isSome) := by
        simp [gateMarkGo, List.filter_cons, hrank]
      rw [hfil, List.length_cons]
      omega
    · have hrank : (gateEntry cfg s r).rank = none := by
        rw [gateEntry, if_neg hcond]
        exact h r (by simp)
      have hfil : (gateMarkGo cfg s (r :: rs)).filter (fun r => r.rank.isSome) =
          (gateMarkGo cfg (s + 1) rs).filter (fun r => r.rank.isSome) := by
        simp [gateMarkGo, List.filter_cons, hrank]
      rw [hfil]
      omega

theorem gateMarkGo_ranks_nodup (cfg : GateConfig) :
    ∀ (l : List ArticleRecord) (s : Nat), (∀ r ∈ l, r.rank = none) →
      ((gateMarkGo cfg s l).filterMap (fun r => r.rank)).Nodup := by
  intro l
  induction l with
  | nil => intro s h; simp [gateMarkGo]
  | cons r rs ih =>
    intro s h
    have ihr := ih (s + 1) (fun x hx => h x (by simp [hx]))
    by_cases hcond : cfg.hasCredential = true ∧ s < 3 ∧
        sourceAllowed cfg.allowList r = true
    · have hrank : (gateEntry cfg s r).rank = some (s + 1) := by
        rw [gateEntry, if_pos hcond]
      simp only [gateMarkGo, List.filterMap_cons, hrank]
      refine List.Nodup.cons ?_ ihr
      intro hmem
      rcases List.mem_filterMap.mp hmem with ⟨a, ha, hka⟩
      have := gateMarkGo_rank_bounds cfg rs (s + 1)
        (fun x hx => h x (by simp [hx])) a ha (s + 1) hka
      omega
    · have hrank : (gateEntry cfg s r).rank = none := by
        rw [gateEntry, if_neg hcond]
        exact h r (by simp)
      simpa [gateMarkGo, List.filterMap_cons, hrank] using ihr

/-! ## C2 — Enrichment Gate selection rule -/

/-- C2: for every country's impact-ordered record list, the gate marks
exactly the records that are among the top 3 (positions 0–2) and whose
canonical source matches the publisher allow-list, and it marks them with
`rank = position + 1`; and when no enrichment credential is configured, the
gate selects nothing and no Tier-2 call is attempted — the tier-1 records
pass through unchanged with a call count of zero. -/
theorem enrichment_gate_selection (cfg : GateConfig) (ranked : List ArticleRecord)
    (policy : String → Bool) (enrich : String → Option EnrichmentResponse)
    (budget : Nat) :
    (∀ i (h : i < ranked.length) (h2 : i < (gateMark cfg ranked).length),
      (gateMark cfg ranked)[i] =
        (if cfg.hasCredential = true ∧ i < 3 ∧
            sourceAllowed cfg.allowList ranked[i] = true
         then { ranked[i] with rank := some (i + 1) } else ranked[i])) ∧
    (cfg.hasCredential = false → (∀ r ∈ ranked, r.rank = none) →
      gateMark cfg ranked = ranked ∧
      countryEnrich cfg policy enrich budget ranked = (ranked, 0)) := by
  constructor
  · intro i h h2
    have := gateMarkGo_getElem cfg ranked 0 i h (by simpa [gateMark] using h2)
    simpa [gateMark, gateEntry] using this
  · intro hc h0
    have hid : gateMark cfg ranked = ranked := by
      simp [gateMark, gateMarkGo_noCred cfg hc]
    refine ⟨hid, ?_⟩
    have hmaps := tier2Stage_id_unranked policy enrich budget ranked h0
    have h1 := hmaps.1
    have h2 := hmaps.2
    simp only [List.map_map] at h1 h2
    simp [countryEnrich, hid, h1, h2]

/-- C2 witness: with a credential and allow-list {Reuters}, a 4-record
country list gets exactly its top-3 Reuters records marked (position 1 is
from a non-allow-listed source and position 3 is beyond the top 3), and the
no-credential gate is the identity with zero Tier-2 calls. -/
theorem enrichment_gate_selection_witness :
    ((gateMark ⟨["Reuters"], true⟩
        [minimalRecord ⟨"https://a.com/0", none, some "Reuters", none⟩,
         minimalRecord ⟨"https://a.com/1", none, some "Blog", none⟩,
         minimalRecord ⟨"https://a.com/2", none, some "Reuters", none⟩,
         minimalRecord ⟨"https://a.com/3", none, some "Reuters", none⟩]).get
      ⟨1, by decide⟩ =
        minimalRecord ⟨"https://a.com/1", none, some "Blog", none⟩) ∧
    countryEnrich ⟨["Reuters"], false⟩ (fun _ => true) (fun _ => none) 100
        [minimalRecord ⟨"https://a.com/0", none, some "Reuters", none⟩] =
      ([minimalRecord ⟨"https://a.com/0", none, some "Reuters", none⟩], 0) := by
  constructor
  · exact ((enrichment_gate_selection ⟨["Reuters"], true⟩
      [minimalRecord ⟨"https://a.com/0", none, some "Reuters", none⟩,
       minimalRecord ⟨"https://a.com/1", none, some "Blog", none⟩,
       minimalRecord ⟨"https://a.com/2", none, some "Reuters", none⟩,
       minimalRecord ⟨"https://a.com/3", none, some "Reuters", none⟩]
      (fun _ => true) (fun _ => none) 100).1 1 (by decide) (by decide)).trans
      (by decide)
  · exact ((enrichment_gate_selection ⟨["Reuters"], false⟩
      [minimalRecord ⟨"https://a.com/0", none, some "Reuters", none⟩]
      (fun _ => true) (fun _ => none) 100).2 rfl
      (by intro r hr; simp at hr; subst hr; rfl)).2

/-! ## C4 — rank invariant -/

/-- C4: over any country's impact-ordered tier-1 records (all unranked on
input), the gate's output carries at most 3 ranked records, every present
`rank` lies in {1,2,3}, no two records carry the same `rank`, and an
unranked record never reaches Tier-2 (the Tier-2 stage leaves it unchanged
and makes no enrichment call). -/
theorem rank_invariant (cfg : GateConfig) (ranked : List ArticleRecord)
    (policy : String → Bool) (enrich : String → Option EnrichmentResponse)
    (budget : Nat) (h0 : ∀ r ∈ ranked, r.rank = none) :
    ((gateMark cfg ranked).filter (fun r => r.rank.isSome)).length ≤ 3 ∧
    (∀ r ∈ gateMark cfg ranked, ∀ k, r.rank = some k → 1 ≤ k ∧ k ≤ 3) ∧
    ((gateMark cfg ranked).filterMap (fun r => r.rank)).Nodup ∧
    (∀ r, r.rank = none → tier2Stage policy enrich budget r = (r, 0)) := by
  refine ⟨?_, ?_, ?_, ?_⟩
  · simpa [gateMark] using gateMarkGo_count cfg ranked 0 h0
  · intro r hr k hk
    have := gateMarkGo_rank_bounds cfg ranked 0 h0 r (by simpa [gateMark] using hr) k hk
    omega
  · simpa [gateMark] using gateMarkGo_ranks_nodup cfg ranked 0 h0
  · intro r hr
    exact tier2Stage_unranked policy enrich budget r hr

/-- C4 witness: the marked output of a concrete 4-record country satisfies
all four parts of the invariant. -/
theorem rank_invariant_witness :
    ((gateMark ⟨["Reuters"], true⟩
        [minimalRecord ⟨"https://a.com/0", none, some "Reuters", none⟩,
         minimalRecord ⟨"https://a.com/1", none, some "Blog", none⟩,
         minimalRecord ⟨"https://a.com/2", none, some "Reuters", none⟩,
         minimalRecord ⟨"https://a.com/3", none, some "Reuters", none⟩]).filter
      (fun r => r.rank.isSome)).length ≤ 3 ∧
    ((gateMark ⟨["Reuters"], true⟩
        [minimalRecord ⟨"https://a.com/0", none, some "Reuters", none⟩,
         minimalRecord ⟨"https://a.com/1", none, some "Blog", none⟩,
         minimalRecord ⟨"https://a.com/2", none, some "Reuters", none⟩,
         minimalRecord ⟨"https://a.com/3", none, some "Reuters", none⟩]).filterMap
      (fun r => r.rank)).Nodup := by
  have h := rank_invariant ⟨["Reuters"], true⟩
    [minimalRecord ⟨"https://a.com/0", none, some "Reuters", none⟩,
     minimalRecord ⟨"https://a.com/1", none, some "Blog", none⟩,
     minimalRecord ⟨"https://a.com/2", none, some "Reuters", none⟩,
     minimalRecord ⟨"https://a.com/3", none, some "Reuters", none⟩]
    (fun _ => true) (fun _ => none) 100
    (by
      intro r hr
      simp only [List.mem_cons, List.not_mem_nil, or_false] at hr
      rcases hr with h1 | h1 | h1 | h1 <;> (subst h1; rfl))
  exact ⟨h.1, h.2.2.1⟩

/-! ## C8 — refreshRiskJsonWeekly is total over failures -/

/-- C8: for every environment state, `refreshRiskJsonWeekly` returns one of
the three `RefreshOutcome` statuses (skipped, updated, error) and never
propagates an exception: a malformed meta file, a malformed or missing
`risk.json`, a database error and a file-system write error are each
converted into the `error` outcome. -/
theorem refresh_total_and_converts (env : Env) :
    ((refreshRiskJsonWeekly env).outcome.isSkipped = true ∨
     (refreshRiskJsonWeekly env).outcome.isUpdated = true ∨
     (refreshRiskJsonWeekly env).outcome.isError = true) ∧
    (∀ m, env.meta = .malformed m →
      (refreshRiskJsonWeekly env).outcome = .error m) ∧
    (∀ m, env.meta = .absent → env.risk = .malformed m →
      (refreshRiskJsonWeekly env).outcome = .error m) ∧
    (env.meta = .absent → env.risk = .absent →
      (refreshRiskJsonWeekly env).outcome =
        .error "public/api/risk.json is missing or empty; seed it first.") ∧
    (∀ e existing, env.meta = .absent → env.risk = .content existing →
      existing ≠ [] → env.db = .error e →
      (refreshRiskJsonWeekly env).outcome = .error e) ∧
    (∀ e existing joined, env.meta = .absent → env.risk = .content existing →
      existing ≠ [] → env.db = .ok joined → env.mkdirErr = none →
      env.writeRiskErr = none → env.writeMetaErr = some e →
      (refreshRiskJsonWeekly env).outcome = .error e) := by
  refine ⟨?_, ?_, ?_, ?_, ?_, ?_⟩
  · rcases houtcome : (refreshRiskJsonWeekly env).outcome with a | a | a
    · exact Or.inl rfl
    · exact Or.inr (Or.inl rfl)
    · exact Or.inr (Or.inr rfl)
  · intro m hm
    simp [refreshRiskJsonWeekly, hm]
  · intro m hmeta hrisk
    simp [refreshRiskJsonWeekly, refreshAfterSkipCheck, hmeta, hrisk]
  · intro hmeta hrisk
    simp [refreshRiskJsonWeekly, refreshAfterSkipCheck, hmeta, hrisk]
  · intro e existing hmeta hrisk hne hdb
    have hex : existing.isEmpty = false := by
      cases existing with
      | nil => exact absurd rfl hne
      | cons a as => rfl
    simp [refreshRiskJsonWeekly, refreshAfterSkipCheck, hmeta, hrisk, hex, hdb]
  · intro e existing joined hmeta hrisk hne hdb hmk hwr hwm
    have hex : existing.isEmpty = false := by
      cases existing with
      | nil => exact absurd rfl hne
      | cons a as => rfl
    simp [refreshRiskJsonWeekly, refreshAfterSkipCheck, hmeta, hrisk, hex, hdb,
      hmk, hwr, hwm]

/-- C8 witness: an unreadable meta file yields the `error` outcome with the
thrown message, and a complete run yields one of the three statuses. -/
theorem refresh_total_and_converts_witness :
    (refreshRiskJsonWeekly envBadMeta).outcome =
      .error "SyntaxError: Unexpected token" ∧
    ((refreshRiskJsonWeekly envUpdated).outcome.isSkipped = true ∨
     (refreshRiskJsonWeekly envUpdated).outcome.isUpdated = true ∨
     (refreshRiskJsonWeekly envUpdated).outcome.isError = true) := by
  constructor
  · exact (refresh_total_and_converts envBadMeta).2.1
      "SyntaxError: Unexpected token" rfl
  · exact (refresh_total_and_converts envUpdated).1

/-! ## C9 — frame property of the weekly refresh -/

theorem refresh_eq_afterSkip_of_updated (env : Env)
    (h : (refreshRiskJsonWeekly env).outcome.isUpdated = true) :
    refreshRiskJsonWeekly env = refreshAfterSkipCheck env := by
  match hm : env.meta with
  | .malformed msg =>
    simp [refreshRiskJsonWeekly, hm, RefreshOutcome.isUpdated] at h
  | .absent =>
    simp [refreshRiskJsonWeekly, hm]
  | .content m =>
    match hlr : m.last_run with
    | none => simp [refreshRiskJsonWeekly, hm, hlr]
    | some lr =>
      by_cases hif : (msUntilNextEligible env.now lr).2 > 0
      · simp [refreshRiskJsonWeekly, hm, hlr, hif, RefreshOutcome.isUpdated] at h
      · simp [refreshRiskJsonWeekly, hm, hlr, hif]

theorem afterSkip_updated_fsRisk (env : Env) (existing : List CountryRisk)
    (joined : List JoinedLatestRisk) (hrisk : env.risk = .content existing)
    (hdb : env.db = .ok joined)
    (h : (refreshAfterSkipCheck env).outcome.isUpdated = true) :
    (refreshAfterSkipCheck env).fsRisk = .content (updatedList joined existing) := by
  by_cases hex : existing.isEmpty = true
  · simp [refreshAfterSkipCheck, hrisk, hex, RefreshOutcome.isUpdated] at h
  · have hex2 : existing.isEmpty = false := by simpa using hex
    match hmk : env.mkdirErr with
    | some e =>
      simp [refreshAfterSkipCheck, hrisk, hex2, hdb, hmk,
        RefreshOutcome.isUpdated] at h
    | none =>
      match hwr : env.writeRiskErr with
      | some e =>
        simp [refreshAfterSkipCheck, hrisk, hex2, hdb, hmk, hwr,
          RefreshOutcome.isUpdated] at h
      | none =>
        match hwm : env.writeMetaErr with
        | some e =>
          simp [refreshAfterSkipCheck, hrisk, hex2, hdb, hmk, hwr, hwm,
            RefreshOutcome.isUpdated] at h
        | none =>
          simp [refreshAfterSkipCheck, hrisk, hex2, hdb, hmk, hwr, hwm]

/-- C9: whenever `refreshRiskJsonWeekly` returns status `updated`, the
rewritten `risk.json` is exactly the entrywise map of the old one: the same
number of entries in the same order, each keeping its `name`, `lngLat`,
`prevRisk` and `prevRiskSeries` (only `risk` and `iso2` may change), and an
entry whose normalized name matches no database row is written back
entirely unchanged. -/
theorem refresh_updated_frame (env : Env) (existing : List CountryRisk)
    (joined : List JoinedLatestRisk)
    (hrisk : env.risk = .content existing) (hdb : env.db = .ok joined)
    (hupd : (refreshRiskJsonWeekly env).outcome.isUpdated = true) :
    (refreshRiskJsonWeekly env).fsRisk = .content (updatedList joined existing) ∧
    (updatedList joined existing).length = existing.length ∧
    ∀ i (h : i < existing.length) (h2 : i < (updatedList joined existing).length),
      ((updatedList joined existing)[i]).name = (existing[i]).name ∧
      ((updatedList joined existing)[i]).lngLat = (existing[i]).lngLat ∧
      ((updatedList joined existing)[i]).prevRisk = (existing[i]).prevRisk ∧
      ((updatedList joined existing)[i]).prevRiskSeries =
        (existing[i]).prevRiskSeries ∧
      (dbLookup joined (normalizeName ((existing[i]).name)) = none →
        (updatedList joined existing)[i] = existing[i]) := by
  have heq := refresh_eq_afterSkip_of_updated env hupd
  rw [heq] at hupd ⊢
  refine ⟨afterSkip_updated_fsRisk env existing joined hrisk hdb hupd,
    by simp [updatedList], ?_⟩
  intro i h h2
  have hget : (updatedList joined existing)[i] = updatedEntry joined existing[i] := by
    simp [updatedList]
  rw [hget]
  cases hlook : dbLookup joined (normalizeName ((existing[i]).name)) with
  | some r =>
    refine ⟨?_, ?_, ?_, ?_, ?_⟩
    · simp [updatedEntry, hlook]
    · simp [updatedEntry, hlook]
    · simp [updatedEntry, hlook]
    · simp [updatedEntry, hlook]
    · intro hc
      cases hc
  | none =>
    refine ⟨?_, ?_, ?_, ?_, ?_⟩
    · simp [updatedEntry, hlook]
    · simp [updatedEntry, hlook]
    · simp [updatedEntry, hlook]
    · simp [updatedEntry, hlook]
    · intro _
      simp [updatedEntry, hlook]

/-- C9 witness: in a concrete environment the refresh reports `updated`,
writes exactly the entrywise-updated array, and the entry matching no
database row ("Atlantis") is written back unchanged. -/
theorem refresh_updated_frame_witness :
    (refreshRiskJsonWeekly envUpdated).fsRisk =
      .content (updatedList [sampleRowFr] [sampleEntryFr, sampleEntryAt]) ∧
    (updatedList [sampleRowFr] [sampleEntryFr, sampleEntryAt]).get ⟨1, by decide⟩ =
      sampleEntryAt := by
  have h := refresh_updated_frame envUpdated [sampleEntryFr, sampleEntryAt]
    [sampleRowFr] rfl rfl (by decide)
  exact ⟨h.1, ((h.2.2 1 (by decide) (by decide)).2.2.2.2 (by decide)).trans
    (by decide)⟩

/-! ## C10 — skip atomicity of the weekly refresh -/

/-- C10: whenever the meta file's `last_run` is less than one week
(`ONE_WEEK_MS`) before the current time, `refreshRiskJsonWeekly` returns
`skipped` carrying the stored `last_run` and the computed next-eligible
instant, leaves both files exactly as they were, and issues no database
query. -/
theorem refresh_skip_atomic (env : Env) (m : MetaFile) (lr : Int)
    (hm : env.meta = .content m) (hlr : m.last_run = some lr)
    (hfresh : env.now - lr < ONE_WEEK_MS) :
    refreshRiskJsonWeekly env =
      ⟨.skipped lr (lr + ONE_WEEK_MS), env.meta, env.risk, false⟩ := by
  have hpos : (0 : Int) < lr + ONE_WEEK_MS - env.now := by omega
  have hpos2 : (msUntilNextEligible env.now lr).2 > 0 := by
    simp only [msUntilNextEligible]
    exact lt_max_of_lt_right hpos
  simp [refreshRiskJsonWeekly, hm, hlr, hpos2, msUntilNextEligible]
  intro hcontra
  exact absurd hcontra (by omega)

/-- C10 witness: with a `last_run` half a second before now, the refresh
skips, both files keep their contents, and the database is untouched. -/
theorem refresh_skip_atomic_witness :
    refreshRiskJsonWeekly envSkip =
      ⟨.skipped 500 (500 + ONE_WEEK_MS), envSkip.meta, envSkip.risk, false⟩ := by
  exact refresh_skip_atomic envSkip
    { last_run := some 500, note := none, source := none } 500 rfl rfl (by decide)
